import Mathlib

/-!
Shallow embedding of `auth/user.go` (tsuru user identity and key management).

The Document Store (mongo via `db.Conn()`) and the Repository Manager
(`repository.Manager()`) are external collaborators.  Their visible state is
carried explicitly (`DocStore`, `RepoManagerState`, bundled in `World`), and
the outcome of each external call site is an explicit parameter
(`Option String`: `none` means the call succeeds, `some m` means it fails with
message `m`).  On success the call's effect is applied to the state; on
failure the state is untouched.  Log output (`log.Errorf`) is modelled as an
append-only list of strings in the world.
-/

set_option autoImplicit false

namespace Auth

/-- Errors returned by the operations.  `service` stands for an error value
coming from an external collaborator (network, mongo, config); `wrapped`
models `fmt.Errorf("<ctx>: %s", err)`. -/
inductive Err where
  | userNotFound
  | userAlreadyHasKey
  | keyNotFound
  | validationErr (m : String)
  | service (m : String)
  | wrapped (ctx : String) (e : Err)
deriving DecidableEq, Repr

/-- The human-readable message of an error, as `err.Error()` would render it. -/
def Err.msg : Err → String
  | .userNotFound => "user not found"
  | .userAlreadyHasKey => "user already has this key"
  | .keyNotFound => "key not found"
  | .validationErr m => m
  | .service m => m
  | .wrapped ctx e => ctx ++ ": " ++ e.msg

/-- `type Key struct { Name, Content string }`. -/
structure Key where
  name : String
  content : String
deriving DecidableEq, Repr

/-- `repository.Key` (`Name`, `Body`). -/
structure RepoKey where
  name : String
  body : String
deriving DecidableEq, Repr

/-- `func (k *Key) RepoKey() repository.Key`. -/
def Key.RepoKey (k : Key) : RepoKey :=
  { name := k.name, body := k.content }

/-- `quota.Quota`: a limit and a usage counter. -/
structure Quota where
  limit : Int
  inUse : Int
deriving DecidableEq, Repr

/-- Modelled from the spec: `quota.Unlimited` is not part of the source file;
per the spec the unlimited sentinel has limit `-1` ("-1 or a configured
unlimited sentinel means unbounded"). -/
def Quota.unlimited : Quota :=
  { limit := -1, inUse := 0 }

/-- `type User struct { Email, Password string; Keys []Key; quota.Quota; APIKey string }`. -/
structure User where
  email : String
  password : String
  keys : List Key
  quota : Quota
  apiKey : String
deriving DecidableEq, Repr

/-- The Document Store's collection of user records. -/
structure DocStore where
  users : List User
deriving DecidableEq, Repr

/-- The Repository Manager's visible state: created users and key
registrations `(email, key)`. -/
structure RepoManagerState where
  users : List String
  keys : List (String × RepoKey)
deriving DecidableEq, Repr

/-- The two external stores plus the log stream. -/
structure World where
  ds : DocStore
  rm : RepoManagerState
  log : List String
deriving DecidableEq, Repr

/-- `conn.Users().Find(bson.M{"email": email}).One(&u)` on success: the first
record with the given email, if any. -/
def DocStore.findByEmail (ds : DocStore) (email : String) : Option User :=
  ds.users.find? (fun r => r.email == email)

/-- Remove the first record with the given email (`conn.Users().Remove`
removes a single matching document). -/
def removeFirstByEmail (email : String) : List User → List User
  | [] => []
  | r :: rs => if r.email = email then rs else r :: removeFirstByEmail email rs

/-- Effect of a successful `conn.Users().Remove(bson.M{"email": email})`. -/
def DocStore.removeByEmail (ds : DocStore) (email : String) : DocStore :=
  { users := removeFirstByEmail email ds.users }

/-- Replace the first record whose email matches `u.email` by `u`
(`conn.Users().Update(bson.M{"email": u.Email}, u)` is a full-document
replace). -/
def updateFirstByEmail (u : User) : List User → List User
  | [] => []
  | r :: rs => if r.email = u.email then u :: rs else r :: updateFirstByEmail u rs

/-- Effect of a successful `conn.Users().Update`. -/
def DocStore.updateByEmail (ds : DocStore) (u : User) : DocStore :=
  { users := updateFirstByEmail u ds.users }

/-- `conn.Users().Insert(u)`: fails on a duplicate primary key (email) or on
an injected connectivity error; on success the record is appended. -/
def DocStore.insertUser (ds : DocStore) (u : User) (connLoss : Option String) :
    Except Err Unit × DocStore :=
  if ds.users.any (fun r => r.email == u.email) then
    (.error (.service "duplicate key error"), ds)
  else
    match connLoss with
    | some m => (.error (.service m), ds)
    | none => (.ok (), { users := ds.users ++ [u] })

/-- Effect of a successful `repository.Manager().AddKey(email, k)`. -/
def RepoManagerState.addKeyReg (rm : RepoManagerState) (email : String) (rk : RepoKey) :
    RepoManagerState :=
  { rm with keys := rm.keys ++ [(email, rk)] }

/-- Effect of a successful `repository.Manager().RemoveKey(email, k)`: the
registration is gone afterwards. -/
def RepoManagerState.removeKeyReg (rm : RepoManagerState) (email : String) (rk : RepoKey) :
    RepoManagerState :=
  { rm with keys := rm.keys.filter (fun p => decide (¬(p.1 = email ∧ p.2 = rk))) }

/-- Effect of a successful `repository.Manager().CreateUser(email)`. -/
def RepoManagerState.createUserReg (rm : RepoManagerState) (email : String) :
    RepoManagerState :=
  { rm with users := rm.users ++ [email] }

/-- Effect of a successful `repository.Manager().RemoveUser(email)`. -/
def RepoManagerState.removeUserReg (rm : RepoManagerState) (email : String) :
    RepoManagerState :=
  { rm with users := rm.users.filter (fun e => e ≠ email) }

/-- `func (u *User) FindKey(key Key) (Key, int)`: scan `u.Keys` for the first
entry matching by name or content; `(Key{}, -1)` if none. -/
def findKeyAux (key : Key) : List Key → Nat → Key × Int
  | [], _ => ({ name := "", content := "" }, -1)
  | k :: ks, i =>
    if k.name = key.name ∨ k.content = key.content then (k, (i : Int))
    else findKeyAux key ks (i + 1)

/-- `User.FindKey`. -/
def User.FindKey (u : User) (key : Key) : Key × Int :=
  findKeyAux key u.keys 0

/-- `func (u *User) HasKey(key Key) bool { _, index := u.FindKey(key); return index > -1 }`. -/
def User.HasKey (u : User) (key : Key) : Bool :=
  decide ((-1 : Int) < (u.FindKey key).2)

/-- The auto-naming performed at the top of `AddKey`:
`key.Name = fmt.Sprintf("%s-%d", u.Email, len(u.Keys)+1)` when the name is
empty. -/
def User.autoNamed (u : User) (k : Key) : Key :=
  if k.name = "" then { k with name := u.email ++ "-" ++ toString (u.keys.length + 1) }
  else k

/-- `func (u *User) Update() error`: `db.Conn()` then
`conn.Users().Update(bson.M{"email": u.Email}, u)`; `dbConn`/`dbUpdate` are
the outcomes of the two external calls. -/
def User.Update (u : User) (dbConn dbUpdate : Option String) (ds : DocStore) :
    Except Err Unit × DocStore :=
  match dbConn with
  | some m => (.error (.service m), ds)
  | none =>
    match dbUpdate with
    | some m => (.error (.service m), ds)
    | none => (.ok (), ds.updateByEmail u)

/-- `func (u *User) addKeyRepository(key *Key) error`: on failure of the
remote call the error is wrapped as
`fmt.Errorf("failed to add key to git server: %s", err)`. -/
def User.addKeyRepository (u : User) (key : Key) (rmErr : Option String)
    (rm : RepoManagerState) : Except Err Unit × RepoManagerState :=
  match rmErr with
  | some m => (.error (.wrapped "failed to add key to git server" (.service m)), rm)
  | none => (.ok (), rm.addKeyReg u.email key.RepoKey)

/-- `func (u *User) removeKeyRepository(key *Key) error`: on failure the error
is wrapped as `fmt.Errorf("failed to remove the key from git server: %s", err)`. -/
def User.removeKeyRepository (u : User) (key : Key) (rmErr : Option String)
    (rm : RepoManagerState) : Except Err Unit × RepoManagerState :=
  match rmErr with
  | some m => (.error (.wrapped "failed to remove the key from git server" (.service m)), rm)
  | none => (.ok (), rm.removeKeyReg u.email key.RepoKey)

/-- `func (u *User) addKeyDB(key *Key) error`: append the key to the
in-memory list, then persist via `Update`.  The in-memory append stays even
when the persist fails. -/
def User.addKeyDB (u : User) (key : Key) (dbConn dbUpdate : Option String)
    (ds : DocStore) : User × Except Err Unit × DocStore :=
  let u' := { u with keys := u.keys ++ [key] }
  let r := u'.Update dbConn dbUpdate ds
  (u', r.1, r.2)

/-- Outcomes of the external calls an `AddKey` run can make, one per call
site: the Repository Manager `AddKey`, the `db.Conn()`/`Update` pair inside
`addKeyDB`, and the Repository Manager `RemoveKey` issued by the rollback. -/
structure AddKeyOutcomes where
  rmAddKey : Option String
  dbConn : Option String
  dbUpdate : Option String
  rmRemoveKeyRollback : Option String
deriving DecidableEq, Repr

/-- `func (u *User) AddKey(key Key) error`.  The auto-naming and the
`HasKey` precondition are from the source.  Modelled from the spec: the
action pipeline engine and the `addKeyInRepositoryAction` /
`addKeyInDatabaseAction` definitions are not part of the source file; per the
spec, step 1's forward registers the key with the Repository Manager and its
backward deregisters it, step 2's forward appends the key and persists (no
backward, it is last); on failure of step 2 the pipeline runs step 1's
backward and returns step 2's original error, and a backward failure is only
reported as a secondary diagnostic (logged). -/
def User.AddKey (u : User) (k : Key) (o : AddKeyOutcomes) (w : World) :
    Except Err Unit × User × World :=
  let key := u.autoNamed k
  if u.HasKey key then (.error .userAlreadyHasKey, u, w)
  else
    match u.addKeyRepository key o.rmAddKey w.rm with
    | (.error e, rm') => (.error e, u, { w with rm := rm' })
    | (.ok _, rm') =>
      let step2 := u.addKeyDB key o.dbConn o.dbUpdate w.ds
      match step2.2.1 with
      | .ok _ => (.ok (), step2.1, { w with ds := step2.2.2, rm := rm' })
      | .error e =>
        match step2.1.removeKeyRepository key o.rmRemoveKeyRollback rm' with
        | (.ok _, rm'') => (.error e, step2.1, { w with ds := step2.2.2, rm := rm'' })
        | (.error _, rm'') =>
          (.error e, step2.1,
            { w with ds := step2.2.2, rm := rm'',
                     log := w.log ++ ["failed to remove key from the repository manager during rollback"] })

/-- Outcomes of the external calls inside `RemoveKey`. -/
structure RemoveKeyOutcomes where
  rmRemoveKey : Option String
  dbConn : Option String
  dbUpdate : Option String
deriving DecidableEq, Repr

/-- `func (u *User) RemoveKey(key Key) error`: find by name-or-content,
deregister from the Repository Manager first, and only then splice the key
out of the ordered list (`copy` + truncate removes the element at `index`)
and persist. -/
def User.RemoveKey (u : User) (key : Key) (o : RemoveKeyOutcomes) (w : World) :
    Except Err Unit × User × World :=
  let fk := u.FindKey key
  if fk.2 < 0 then (.error .keyNotFound, u, w)
  else
    match u.removeKeyRepository fk.1 o.rmRemoveKey w.rm with
    | (.error e, rm') => (.error e, u, { w with rm := rm' })
    | (.ok _, rm') =>
      let u' := { u with keys := u.keys.eraseIdx fk.2.toNat }
      let r := u'.Update o.dbConn o.dbUpdate w.ds
      (r.1, u', { w with ds := r.2, rm := rm' })

/-- Outcomes of the external calls inside `Delete`. -/
structure DeleteOutcomes where
  dbConn : Option String
  dbRemove : Option String
  rmRemoveUser : Option String
deriving DecidableEq, Repr

/-- `func (u *User) Delete() error`: after obtaining a connection, remove the
Document Store record and the Repository Manager registration independently;
each failure is logged (`log.Errorf`) and the function returns nil. -/
def User.Delete (u : User) (o : DeleteOutcomes) (w : World) : Except Err Unit × World :=
  match o.dbConn with
  | some m => (.error (.service m), w)
  | none =>
    let w1 :=
      match o.dbRemove with
      | some m =>
        { w with log := w.log ++
            ["failed to remove user \"" ++ u.email ++ "\" from the database: " ++ m] }
      | none => { w with ds := w.ds.removeByEmail u.email }
    let w2 :=
      match o.rmRemoveUser with
      | some m =>
        { w1 with log := w1.log ++
            ["failed to remove user \"" ++ u.email ++ "\" from the repository manager: " ++ m] }
      | none => { w1 with rm := w1.rm.removeUserReg u.email }
    (.ok (), w2)

/-- The quota resolution at the top of `Create`: when `u.Quota.Limit == 0`,
set the unlimited sentinel and then override it with the configured
`quota:apps-per-user` value when `config.GetInt` succeeds and the value is
`> -1`.  `appsPerUser` models the `config.GetInt` call (`none` = error). -/
def User.resolveQuota (u : User) (appsPerUser : Option Int) : User :=
  if u.quota.limit = 0 then
    let u1 := { u with quota := Quota.unlimited }
    match appsPerUser with
    | some limit => if limit > -1 then { u1 with quota := { u1.quota with limit := limit } } else u1
    | none => u1
  else u

/-- The key-registration loop of `createOnRepositoryManager`: register each
key in order via `addKeyRepository`, aborting on the first failure.
`rmAddKeyAt i` is the outcome of the remote call for the `i`-th key. -/
def User.registerKeys (u : User) (rmAddKeyAt : Nat → Option String) :
    List Key → Nat → RepoManagerState → Except Err Unit × RepoManagerState
  | [], _, rm => (.ok (), rm)
  | k :: ks, i, rm =>
    match u.addKeyRepository k (rmAddKeyAt i) rm with
    | (.error e, rm') => (.error e, rm')
    | (.ok _, rm') => u.registerKeys rmAddKeyAt ks (i + 1) rm'

/-- `func (u *User) createOnRepositoryManager() error`: `CreateUser`, then the
pre-existing keys one by one. -/
def User.createOnRepositoryManager (u : User) (rmCreateUser : Option String)
    (rmAddKeyAt : Nat → Option String) (rm : RepoManagerState) :
    Except Err Unit × RepoManagerState :=
  match rmCreateUser with
  | some m => (.error (.service m), rm)
  | none => u.registerKeys rmAddKeyAt u.keys 0 (rm.createUserReg u.email)

/-- Outcomes of the external calls a `Create` run can make, including those
of the compensating `Delete`. -/
structure CreateOutcomes where
  dbConn : Option String
  appsPerUser : Option Int
  dbInsert : Option String
  rmCreateUser : Option String
  rmAddKeyAt : Nat → Option String
  del : DeleteOutcomes

/-- `func (u *User) Create() error`: connection, quota resolution, Document
Store insert, Repository Manager registration; on registration failure the
just-inserted record is compensated by `u.Delete()` whose result is
discarded, and the registration error is returned. -/
def User.Create (u : User) (o : CreateOutcomes) (w : World) :
    Except Err Unit × User × World :=
  match o.dbConn with
  | some m => (.error (.service m), u, w)
  | none =>
    let u1 := u.resolveQuota o.appsPerUser
    match w.ds.insertUser u1 o.dbInsert with
    | (.error e, ds') => (.error e, u1, { w with ds := ds' })
    | (.ok _, ds') =>
      let w1 := { w with ds := ds' }
      match u1.createOnRepositoryManager o.rmCreateUser o.rmAddKeyAt w1.rm with
      | (.ok _, rm') => (.ok (), u1, { w1 with rm := rm' })
      | (.error e, rm') =>
        let r := u1.Delete o.del { w1 with rm := rm' }
        (.error e, u1, r.2)

/-- Outcomes of the external calls inside `GetUserByEmail`. -/
structure GetOutcomes where
  dbConn : Option String
  dbFind : Option String
deriving DecidableEq, Repr

/-- `func GetUserByEmail(email string) (*User, error)`: validation
(`validate` models `validation.ValidateEmail`), then `db.Conn()` (its error
is returned as-is), then `Find(...).One(&u)` — any error of the query,
including the record being absent, is mapped to `ErrUserNotFound`. -/
def GetUserByEmail (validate : String → Bool) (email : String) (o : GetOutcomes)
    (ds : DocStore) : Except Err User :=
  if ¬ validate email then .error (.validationErr "invalid email")
  else
    match o.dbConn with
    | some m => .error (.service m)
    | none =>
      match o.dbFind with
      | some _ => .error .userNotFound
      | none =>
        match ds.findByEmail email with
        | some u0 => .ok u0
        | none => .error .userNotFound

/-! Concrete collaborator outcomes and states used by witnesses and
counterexamples. -/

/-- All external calls succeed during an `AddKey`. -/
def okAdd : AddKeyOutcomes :=
  { rmAddKey := none, dbConn := none, dbUpdate := none, rmRemoveKeyRollback := none }

/-- All external calls succeed during a `RemoveKey`. -/
def okRemove : RemoveKeyOutcomes :=
  { rmRemoveKey := none, dbConn := none, dbUpdate := none }

/-- A user with no keys yet. -/
def exUser0 : User :=
  { email := "a@x.com", password := "p", keys := [],
    quota := { limit := -1, inUse := 0 }, apiKey := "" }

/-- A world whose Document Store holds `exUser0` and whose Repository Manager
knows the user but no keys. -/
def exWorld0 : World :=
  { ds := { users := [exUser0] }, rm := { users := ["a@x.com"], keys := [] }, log := [] }

/-- An empty world. -/
def emptyWorld : World :=
  { ds := { users := [] }, rm := { users := [], keys := [] }, log := [] }

/-- A named key used by the `AddKey` scenarios. -/
def exKey1 : Key := { name := "k1", content := "ssh-rsa AAA" }

/-- `AddKey` outcomes where the Repository Manager registration succeeds, the
persistence fails, and the compensating deregistration also fails. -/
def persistFailRollbackFail : AddKeyOutcomes :=
  { rmAddKey := none, dbConn := none, dbUpdate := some "update failed",
    rmRemoveKeyRollback := some "git down" }

/-- `AddKey` outcomes where the Repository Manager registration succeeds, the
persistence fails, and the compensating deregistration succeeds. -/
def persistFailRollbackOk : AddKeyOutcomes :=
  { rmAddKey := none, dbConn := none, dbUpdate := some "update failed",
    rmRemoveKeyRollback := none }

/-- A user who already holds `exKey1`. -/
def uWithKey : User := { exUser0 with keys := [exKey1] }

/-- Keys for the order-preservation scenario. -/
def kA : Key := { name := "ka", content := "ca" }

/-- Second key of the order-preservation scenario. -/
def kB : Key := { name := "kb", content := "cb" }

/-- Third key of the order-preservation scenario. -/
def kC : Key := { name := "kc", content := "cc" }

/-- A user holding `[kA, kB, kC]`. -/
def uABC : User := { exUser0 with keys := [kA, kB, kC] }

/-- A user with an unset quota limit. -/
def uQuota0 : User := { exUser0 with quota := { limit := 0, inUse := 0 } }

/-- `Create` outcomes with every external call succeeding and
`quota:apps-per-user` configured to 5. -/
def oQuota5 : CreateOutcomes :=
  { dbConn := none, appsPerUser := some 5, dbInsert := none, rmCreateUser := none,
    rmAddKeyAt := fun _ => none,
    del := { dbConn := none, dbRemove := none, rmRemoveUser := none } }

/-- A key-less user for the `Create` scenarios. -/
def uC2 : User :=
  { email := "b@x.com", password := "p", keys := [],
    quota := { limit := -1, inUse := 0 }, apiKey := "" }

/-- `Create` outcomes where the Repository Manager's `createUser` fails and
then the compensating `Delete` cannot even obtain a connection. -/
def createRmFailDelConnFail : CreateOutcomes :=
  { dbConn := none, appsPerUser := none, dbInsert := none,
    rmCreateUser := some "git server down", rmAddKeyAt := fun _ => none,
    del := { dbConn := some "connection refused", dbRemove := none, rmRemoveUser := none } }

/-- `Create` outcomes where the Repository Manager's `createUser` fails and
the compensating `Delete` succeeds. -/
def createRmFailDelOk : CreateOutcomes :=
  { dbConn := none, appsPerUser := none, dbInsert := none,
    rmCreateUser := some "git server down", rmAddKeyAt := fun _ => none,
    del := { dbConn := none, dbRemove := none, rmRemoveUser := none } }

/-- First step of the reachability chain: add an auto-named key `c1`. -/
def chainR1 : Except Err Unit × User × World :=
  User.AddKey exUser0 { name := "", content := "c1" } okAdd exWorld0

/-- Second step: add an auto-named key `c2`. -/
def chainR2 : Except Err Unit × User × World :=
  User.AddKey chainR1.2.1 { name := "", content := "c2" } okAdd chainR1.2.2

/-- Third step: remove the first key (matched by content `c1`). -/
def chainR3 : Except Err Unit × User × World :=
  User.RemoveKey chainR2.2.1 { name := "", content := "c1" } okRemove chainR2.2.2

/-! Helper lemmas about `FindKey`/`HasKey` and list surgery. -/

lemma findKeyAux_no_match (key : Key) (l : List Key) (i : Nat)
    (h : ∀ k0 ∈ l, ¬(k0.name = key.name ∨ k0.content = key.content)) :
    findKeyAux key l i = ({ name := "", content := "" }, -1) := by
  induction l generalizing i with
  | nil => rfl
  | cons a as ih =>
    have ha := h a (List.mem_cons_self a as)
    rw [findKeyAux, if_neg ha]
    exact ih (i + 1) (fun k0 hk0 => h k0 (List.mem_cons_of_mem a hk0))

lemma findKeyAux_nonneg (key : Key) (l : List Key) (i : Nat)
    (h : ∃ k0 ∈ l, k0.name = key.name ∨ k0.content = key.content) :
    0 ≤ (findKeyAux key l i).2 := by
  induction l generalizing i with
  | nil => rcases h with ⟨k0, hk0, _⟩; exact absurd hk0 (List.not_mem_nil k0)
  | cons a as ih =>
    by_cases hm : a.name = key.name ∨ a.content = key.content
    · rw [findKeyAux, if_pos hm]
      exact Int.natCast_nonneg i
    · rw [findKeyAux, if_neg hm]
      rcases h with ⟨k0, hk0, hmatch⟩
      rcases List.mem_cons.mp hk0 with rfl | htail
      · exact absurd hmatch hm
      · exact ih (i + 1) ⟨k0, htail, hmatch⟩

lemma hasKey_of_match (u : User) (key k0 : Key) (h0 : k0 ∈ u.keys)
    (hm : k0.name = key.name ∨ k0.content = key.content) : u.HasKey key = true := by
  have h := findKeyAux_nonneg key u.keys 0 ⟨k0, h0, hm⟩
  rw [User.HasKey, decide_eq_true_iff]
  rw [User.FindKey]
  omega

lemma no_match_of_hasKey_false (u : User) (key : Key) (h : u.HasKey key = false) :
    ∀ k0 ∈ u.keys, ¬(k0.name = key.name ∨ k0.content = key.content) := by
  intro k0 hk0 hm
  have htrue := hasKey_of_match u key k0 hk0 hm
  rw [h] at htrue
  exact Bool.false_ne_true htrue

lemma autoNamed_content (u : User) (k : Key) : (u.autoNamed k).content = k.content := by
  rw [User.autoNamed]
  split <;> rfl

lemma eraseIdx_eq_take_drop {α : Type} (l : List α) (i : Nat) :
    l.eraseIdx i = l.take i ++ l.drop (i + 1) := by
  induction l generalizing i with
  | nil => simp [List.eraseIdx]
  | cons a as ih =>
    cases i with
    | zero => simp [List.eraseIdx]
    | succ n => simp [List.eraseIdx, ih n]

lemma filter_decEq_nil (l : List Key) (a : Key) (h : ∀ x ∈ l, x ≠ a) :
    l.filter (fun k0 => decide (k0 = a)) = [] := by
  induction l with
  | nil => rfl
  | cons b bs ih =>
    have hb := h b (List.mem_cons_self b bs)
    rw [List.filter_cons]
    simp only [decide_eq_true_iff]
    rw [if_neg hb]
    exact ih (fun x hx => h x (List.mem_cons_of_mem b hx))

lemma removeKeyReg_not_mem (rm : RepoManagerState) (email : String) (rk : RepoKey) :
    ∀ p ∈ (rm.removeKeyReg email rk).keys, p ≠ (email, rk) := by
  intro p hp
  rw [RepoManagerState.removeKeyReg] at hp
  simp only [List.mem_filter, decide_eq_true_iff] at hp
  intro hcontra
  exact hp.2 ⟨by rw [hcontra], by rw [hcontra]⟩

lemma resolveQuota_email (u : User) (a : Option Int) :
    (u.resolveQuota a).email = u.email := by
  rw [User.resolveQuota]
  split
  · cases a with
    | some l =>
      by_cases hl : l > -1
      · simp [hl]
      · simp [hl]
    | none => rfl
  · rfl

lemma removeFirst_append_self (l : List User) (u1 : User) (e : String)
    (h : ∀ r ∈ l, r.email ≠ e) (h1 : u1.email = e) :
    removeFirstByEmail e (l ++ [u1]) = l := by
  induction l with
  | nil => simp [removeFirstByEmail, h1]
  | cons a as ih =>
    have ha := h a (List.mem_cons_self a as)
    simp only [List.cons_append, removeFirstByEmail, if_neg ha]
    exact congrArg (List.cons a) (ih (fun r hr => h r (List.mem_cons_of_mem a hr)))

/-! Claim theorems. -/

/-- C3: for every `AddKey` call in which the Repository Manager's `addKey`
(the first pipeline step) fails, `AddKey` returns an error wrapping
"failed to add key to git server" around the remote-service error, whose
message contains that context string, and the user (key list included), the
Document Store, the Repository Manager and the log are all unchanged — no
new registration and no compensation. -/
theorem addKey_repo_failure_no_effects (u : User) (k : Key) (o : AddKeyOutcomes)
    (w : World) (m : String)
    (hpre : u.HasKey (u.autoNamed k) = false)
    (hrm : o.rmAddKey = some m) :
    User.AddKey u k o w =
      (.error (.wrapped "failed to add key to git server" (.service m)), u, w)
    ∧ (Err.wrapped "failed to add key to git server" (.service m)).msg =
        "failed to add key to git server: " ++ m := by
  refine ⟨?_, rfl⟩
  rw [User.AddKey]
  simp only [hpre, Bool.false_eq_true, if_false, User.addKeyRepository, hrm]

/-- Witness for C3: a concrete `AddKey` run whose Repository Manager call
fails leaves everything unchanged and surfaces the wrapped error. -/
theorem addKey_repo_failure_no_effects_witness :
    User.AddKey exUser0 exKey1
        { rmAddKey := some "git unreachable", dbConn := none, dbUpdate := none,
          rmRemoveKeyRollback := none } exWorld0 =
      (.error (.wrapped "failed to add key to git server" (.service "git unreachable")),
        exUser0, exWorld0) :=
  (addKey_repo_failure_no_effects exUser0 exKey1 _ exWorld0 "git unreachable"
    (by decide) rfl).1

/-- C9: a user whose only key is named "a@x.com-2" is reachable (add two
auto-named keys, then remove the first), and in that state `AddKey` with an
empty name and fresh content `c3` is rejected with the "user already has this
key" error: the auto-generated name `a@x.com-2` collides with the surviving
key's name even though no stored key has content `c3`. -/
theorem addKey_autoname_collision_reachable :
    chainR1.1 = .ok () ∧ chainR2.1 = .ok () ∧ chainR3.1 = .ok ()
    ∧ chainR3.2.1.keys = [{ name := "a@x.com-2", content := "c2" }]
    ∧ User.AddKey chainR3.2.1 { name := "", content := "c3" } okAdd chainR3.2.2 =
        (.error .userAlreadyHasKey, chainR3.2.1, chainR3.2.2) :=
  ⟨rfl, rfl, rfl, rfl, rfl⟩

/-- C10 counterexample: a Document Store connection failure is returned
verbatim by `GetUserByEmail` (`db.Conn()`'s error is propagated as-is), not
mapped to `ErrUserNotFound` — so not every lookup failure is mapped to the
single "user not found" error. -/
theorem getUserByEmail_conn_error_passthrough :
    GetUserByEmail (fun _ => true) "a@x.com"
        { dbConn := some "connection refused", dbFind := none } { users := [] } =
      .error (.service "connection refused")
    ∧ Err.service "connection refused" ≠ Err.userNotFound :=
  ⟨rfl, by decide⟩

/-- C10 (amended): for every email that passes validation and a successfully
established connection, every failure of the `Find(...).One` query — a query
error as well as a genuinely absent record — is mapped to the single
`ErrUserNotFound`; a found record is returned as-is.  (A
connection-establishment failure, by contrast, is returned verbatim.) -/
theorem getUserByEmail_maps_find_failures (validate : String → Bool) (email : String)
    (o : GetOutcomes) (ds : DocStore)
    (hv : validate email = true) (hc : o.dbConn = none) :
    ((o.dbFind ≠ none ∨ ds.findByEmail email = none) →
      GetUserByEmail validate email o ds = .error .userNotFound)
    ∧ (∀ u0 : User, o.dbFind = none → ds.findByEmail email = some u0 →
      GetUserByEmail validate email o ds = .ok u0) := by
  constructor
  · intro hfail
    cases hf : o.dbFind with
    | some m => simp [GetUserByEmail, hv, hc, hf]
    | none =>
      rcases hfail with h1 | h1
      · exact absurd hf h1
      · simp [GetUserByEmail, hv, hc, hf, h1]
  · intro u0 hf hfind
    simp [GetUserByEmail, hv, hc, hf, hfind]

/-- Witness for C10 (amended): a concrete query error is mapped to
`ErrUserNotFound`. -/
theorem getUserByEmail_maps_find_failures_witness :
    GetUserByEmail (fun _ => true) "a@x.com"
        { dbConn := none, dbFind := some "cursor timeout" } { users := [exUser0] } =
      .error .userNotFound :=
  (getUserByEmail_maps_find_failures (fun _ => true) "a@x.com" _ _ rfl rfl).1
    (Or.inl (by decide))

/-- C6 counterexample: when obtaining the Document Store connection fails,
`Delete` returns that error instead of nil and attempts neither removal (the
world is unchanged) — so `Delete` does not report success regardless of
failures. -/
theorem delete_conn_failure_returns_error :
    User.Delete exUser0
        { dbConn := some "connection refused", dbRemove := none, rmRemoveUser := none }
        exWorld0 =
      (.error (.service "connection refused"), exWorld0) := rfl

/-- C6 (amended): for every `Delete` call in which the Document Store
connection is obtained, the record removal and the Repository Manager
deregistration are attempted independently: each succeeds or fails on its
own, a failure of either is logged and does not block the other, and `Delete`
returns nil regardless. -/
theorem delete_best_effort (u : User) (o : DeleteOutcomes) (w : World)
    (h : o.dbConn = none) :
    (User.Delete u o w).1 = .ok ()
    ∧ (User.Delete u o w).2.ds =
        (match o.dbRemove with
         | none => w.ds.removeByEmail u.email
         | some _ => w.ds)
    ∧ (User.Delete u o w).2.rm =
        (match o.rmRemoveUser with
         | none => w.rm.removeUserReg u.email
         | some _ => w.rm)
    ∧ (User.Delete u o w).2.log =
        w.log ++
          (match o.dbRemove with
           | some m => ["failed to remove user \"" ++ u.email ++ "\" from the database: " ++ m]
           | none => []) ++
          (match o.rmRemoveUser with
           | some m =>
             ["failed to remove user \"" ++ u.email ++ "\" from the repository manager: " ++ m]
           | none => []) := by
  rw [User.Delete, h]
  cases o.dbRemove <;> cases o.rmRemoveUser <;> simp

/-- Witness for C6 (amended): with both removals failing, `Delete` still
returns nil. -/
theorem delete_best_effort_witness :
    (User.Delete exUser0
        { dbConn := none, dbRemove := some "db gone", rmRemoveUser := some "rm gone" }
        exWorld0).1 = .ok () :=
  (delete_best_effort exUser0
    { dbConn := none, dbRemove := some "db gone", rmRemoveUser := some "rm gone" }
    exWorld0 rfl).1

/-- C4: a key that matches an existing entry by name or content (after
auto-naming) is rejected with the "user already has this key" error before
the pipeline starts, leaving the user, both stores and the log unchanged;
consequently, after a fully successful `AddKey`, adding the same key again
always fails with the conflict error, leaves the post-first-call state
identical, and the first key is present exactly once. -/
theorem addKey_duplicate_rejected :
    (∀ (u : User) (k : Key) (o : AddKeyOutcomes) (w : World),
      u.HasKey (u.autoNamed k) = true →
      User.AddKey u k o w = (.error .userAlreadyHasKey, u, w))
    ∧ (∀ (u : User) (k : Key) (o o2 : AddKeyOutcomes) (w : World),
      u.HasKey (u.autoNamed k) = false →
      o.rmAddKey = none → o.dbConn = none → o.dbUpdate = none →
      (User.AddKey u k o w).1 = .ok ()
      ∧ User.AddKey (User.AddKey u k o w).2.1 k o2 (User.AddKey u k o w).2.2 =
          (.error .userAlreadyHasKey, (User.AddKey u k o w).2.1,
            (User.AddKey u k o w).2.2)
      ∧ ((User.AddKey u k o w).2.1.keys.filter
          (fun k0 => decide (k0 = u.autoNamed k))).length = 1) := by
  have part1 : ∀ (u : User) (k : Key) (o : AddKeyOutcomes) (w : World),
      u.HasKey (u.autoNamed k) = true →
      User.AddKey u k o w = (.error .userAlreadyHasKey, u, w) := by
    intro u k o w h
    rw [User.AddKey]
    simp [h]
  refine ⟨part1, ?_⟩
  intro u k o o2 w hpre h1 h2 h3
  have hrun : User.AddKey u k o w =
      (.ok (), { u with keys := u.keys ++ [u.autoNamed k] },
        { w with ds := w.ds.updateByEmail { u with keys := u.keys ++ [u.autoNamed k] },
                 rm := w.rm.addKeyReg u.email (u.autoNamed k).RepoKey }) := by
    rw [User.AddKey]
    simp [hpre, User.addKeyRepository, h1, User.addKeyDB, User.Update, h2, h3]
  rw [hrun]
  have hmem : u.autoNamed k ∈ ({ u with keys := u.keys ++ [u.autoNamed k] } : User).keys :=
    List.mem_append_right u.keys (List.mem_cons_self _ _)
  have hdup : ({ u with keys := u.keys ++ [u.autoNamed k] } : User).HasKey
      (({ u with keys := u.keys ++ [u.autoNamed k] } : User).autoNamed k) = true := by
    refine hasKey_of_match _ _ (u.autoNamed k) hmem (Or.inr ?_)
    rw [autoNamed_content, autoNamed_content]
  refine ⟨rfl, part1 _ k o2 _ hdup, ?_⟩
  have hnil : u.keys.filter (fun k0 => decide (k0 = u.autoNamed k)) = [] := by
    refine filter_decEq_nil u.keys (u.autoNamed k) (fun x hx hxeq => ?_)
    exact no_match_of_hasKey_false u (u.autoNamed k) hpre x hx (Or.inl (by rw [hxeq]))
  show ((u.keys ++ [u.autoNamed k]).filter (fun k0 => decide (k0 = u.autoNamed k))).length = 1
  rw [List.filter_append, hnil]
  simp

/-- Witness for C4: a concrete successful `AddKey` followed by a second
`AddKey` of the same key, which is rejected and leaves the state unchanged. -/
theorem addKey_duplicate_rejected_witness :
    (User.AddKey exUser0 exKey1 okAdd exWorld0).1 = .ok ()
    ∧ User.AddKey (User.AddKey exUser0 exKey1 okAdd exWorld0).2.1 exKey1 okAdd
        (User.AddKey exUser0 exKey1 okAdd exWorld0).2.2 =
      (.error .userAlreadyHasKey, (User.AddKey exUser0 exKey1 okAdd exWorld0).2.1,
        (User.AddKey exUser0 exKey1 okAdd exWorld0).2.2) := by
  have h := addKey_duplicate_rejected.2 exUser0 exKey1 okAdd okAdd exWorld0
    (by decide) rfl rfl rfl
  exact ⟨h.1, h.2.1⟩

/-- C5: `RemoveKey` returns the "key not found" error with no side effects
when no stored key matches by name or content; when a match exists and the
Repository Manager deregistration fails, it returns the error wrapping
"failed to remove the key from git server" and leaves the in-memory key
list, the Document Store, the Repository Manager and the log untouched —
the list is mutated and persisted only after a successful deregistration. -/
theorem removeKey_not_found_or_repo_failure (u : User) (key : Key)
    (o : RemoveKeyOutcomes) (w : World) (m : String) :
    ((u.FindKey key).2 < 0 →
      User.RemoveKey u key o w = (.error .keyNotFound, u, w))
    ∧ (0 ≤ (u.FindKey key).2 → o.rmRemoveKey = some m →
      User.RemoveKey u key o w =
        (.error (.wrapped "failed to remove the key from git server" (.service m)),
          u, w)) := by
  constructor
  · intro h
    rw [User.RemoveKey]
    simp [h]
  · intro h hrm
    rw [User.RemoveKey]
    simp [not_lt.mpr h, User.removeKeyRepository, hrm]

/-- Witness for C5: a concrete miss returns "key not found" untouched, and a
concrete deregistration failure returns the wrapped error untouched. -/
theorem removeKey_not_found_or_repo_failure_witness :
    User.RemoveKey uWithKey { name := "zz", content := "zz" } okRemove exWorld0 =
      (.error .keyNotFound, uWithKey, exWorld0)
    ∧ User.RemoveKey uWithKey exKey1
        { rmRemoveKey := some "git down", dbConn := none, dbUpdate := none } exWorld0 =
      (.error (.wrapped "failed to remove the key from git server" (.service "git down")),
        uWithKey, exWorld0) :=
  ⟨(removeKey_not_found_or_repo_failure uWithKey { name := "zz", content := "zz" }
      okRemove exWorld0 "x").1 (by decide),
   (removeKey_not_found_or_repo_failure uWithKey exKey1
      { rmRemoveKey := some "git down", dbConn := none, dbUpdate := none }
      exWorld0 "git down").2 (by decide) rfl⟩

/-- C7: whenever the deregistration succeeds, `RemoveKey` removes exactly the
element at the found index — the remaining keys are the prefix before it
followed by the suffix after it, in order; in particular, on a user with keys
`[A, B, C]` (where `B` does not match `A`), removing `B` with both external
steps succeeding returns nil and yields exactly `[A, C]`. -/
theorem removeKey_order_preserved :
    (∀ (u : User) (key : Key) (o : RemoveKeyOutcomes) (w : World),
      o.rmRemoveKey = none → 0 ≤ (u.FindKey key).2 →
      (User.RemoveKey u key o w).2.1.keys =
        u.keys.take (u.FindKey key).2.toNat ++ u.keys.drop ((u.FindKey key).2.toNat + 1))
    ∧ (∀ (a b c : Key) (u : User) (o : RemoveKeyOutcomes) (w : World),
      u.keys = [a, b, c] →
      ¬(a.name = b.name ∨ a.content = b.content) →
      o.rmRemoveKey = none → o.dbConn = none → o.dbUpdate = none →
      (User.RemoveKey u b o w).1 = .ok ()
      ∧ (User.RemoveKey u b o w).2.1.keys = [a, c]) := by
  have part1 : ∀ (u : User) (key : Key) (o : RemoveKeyOutcomes) (w : World),
      o.rmRemoveKey = none → 0 ≤ (u.FindKey key).2 →
      (User.RemoveKey u key o w).2.1.keys =
        u.keys.take (u.FindKey key).2.toNat ++ u.keys.drop ((u.FindKey key).2.toNat + 1) := by
    intro u key o w hrm h
    rw [User.RemoveKey]
    simp [not_lt.mpr h, User.removeKeyRepository, hrm, eraseIdx_eq_take_drop]
  refine ⟨part1, ?_⟩
  intro a b c u o w hkeys hab hrm hc hu
  have hfind : u.FindKey b = (b, 1) := by
    rw [User.FindKey, hkeys]
    rw [findKeyAux, if_neg hab]
    rw [findKeyAux, if_pos (Or.inl rfl)]
    norm_num
  constructor
  · rw [User.RemoveKey]
    simp [hfind, User.removeKeyRepository, hrm, User.Update, hc, hu]
  · rw [User.RemoveKey]
    simp [hfind, hkeys, User.removeKeyRepository, hrm, List.eraseIdx]

/-- Witness for C7: removing `kB` from `[kA, kB, kC]` yields `[kA, kC]`. -/
theorem removeKey_order_preserved_witness :
    (User.RemoveKey uABC kB okRemove exWorld0).1 = .ok ()
    ∧ (User.RemoveKey uABC kB okRemove exWorld0).2.1.keys = [kA, kC] :=
  removeKey_order_preserved.2 kA kB kC uABC okRemove exWorld0 rfl (by decide) rfl rfl rfl

/-- C8: for every `Create` call with an established connection: a user whose
quota limit is unset (0) and a configured non-negative `apps-per-user` value
gets that value as limit; with no configuration present the limit becomes the
unlimited sentinel (-1); a user whose quota limit is already set keeps the
quota unchanged. -/
theorem create_quota_default (u : User) (o : CreateOutcomes) (w : World)
    (h : o.dbConn = none) :
    (∀ l : Int, u.quota.limit = 0 → o.appsPerUser = some l → 0 ≤ l →
      (User.Create u o w).2.1.quota.limit = l)
    ∧ (u.quota.limit = 0 → o.appsPerUser = none →
      (User.Create u o w).2.1.quota.limit = -1)
    ∧ (u.quota.limit ≠ 0 → (User.Create u o w).2.1.quota = u.quota) := by
  have huser : (User.Create u o w).2.1 = u.resolveQuota o.appsPerUser := by
    rw [User.Create, h]
    cases hins : w.ds.insertUser (u.resolveQuota o.appsPerUser) o.dbInsert with
    | mk r1 ds' =>
      cases r1 with
      | error e => simp [hins]
      | ok _ =>
        cases hrm : (u.resolveQuota o.appsPerUser).createOnRepositoryManager
            o.rmCreateUser o.rmAddKeyAt w.rm with
        | mk r2 rm' =>
          cases r2 with
          | ok _ => simp [hins, hrm]
          | error e => simp [hins, hrm]
  refine ⟨?_, ?_, ?_⟩
  · intro l h0 ha hl
    rw [huser, User.resolveQuota]
    have hgt : l > -1 := by omega
    simp [h0, ha, hgt]
  · intro h0 ha
    rw [huser, User.resolveQuota]
    simp [h0, ha, Quota.unlimited]
  · intro h0
    rw [huser, User.resolveQuota]
    simp [h0]

/-- Witness for C8: a concrete user with unset quota and a configured limit
of 5 is created with quota limit 5. -/
theorem create_quota_default_witness :
    (User.Create uQuota0 oQuota5 emptyWorld).2.1.quota.limit = 5 :=
  (create_quota_default uQuota0 oQuota5 emptyWorld rfl).1 5 rfl rfl (by decide)

/-- C1 counterexample: an `AddKey` run in which the Repository Manager step
succeeded and the persistence step failed, but the compensating
deregistration itself failed too.  The original persistence error is
returned, yet the key is still registered with the Repository Manager —
refuting the claim's unconditional "the key is deregistered". -/
theorem addKey_rollback_failure_key_left_registered :
    (User.AddKey exUser0 exKey1 persistFailRollbackFail emptyWorld).1 =
      .error (.service "update failed")
    ∧ (User.AddKey exUser0 exKey1 persistFailRollbackFail emptyWorld).2.2.rm.keys =
      [("a@x.com", { name := "k1", body := "ssh-rsa AAA" })] :=
  ⟨rfl, rfl⟩

/-- C1 (amended): for every `AddKey` call in which the Repository Manager
registration succeeds and the Document Store persistence fails — whatever
the outcome of the compensating deregistration — `AddKey` returns the
original persistence error and the Document Store is unchanged, so no
persisted record contains the key if none did before; and provided the
compensating deregistration succeeds, the Repository Manager no longer has
the key registered. -/
theorem addKey_persist_failure_rolls_back (u : User) (k : Key) (o : AddKeyOutcomes)
    (w : World) (m : String)
    (hpre : u.HasKey (u.autoNamed k) = false)
    (h1 : o.rmAddKey = none)
    (h2 : o.dbConn = some m ∨ (o.dbConn = none ∧ o.dbUpdate = some m))
    (hrec : ∀ r ∈ w.ds.users, u.autoNamed k ∉ r.keys) :
    (User.AddKey u k o w).1 = .error (.service m)
    ∧ (User.AddKey u k o w).2.2.ds = w.ds
    ∧ (∀ r ∈ (User.AddKey u k o w).2.2.ds.users, u.autoNamed k ∉ r.keys)
    ∧ (o.rmRemoveKeyRollback = none →
        ∀ p ∈ (User.AddKey u k o w).2.2.rm.keys,
          p ≠ (u.email, (u.autoNamed k).RepoKey)) := by
  rcases hroll : o.rmRemoveKeyRollback with _ | m2
  · have hrun : User.AddKey u k o w =
        (.error (.service m), { u with keys := u.keys ++ [u.autoNamed k] },
          { w with
              rm :=
                RepoManagerState.removeKeyReg
                  (w.rm.addKeyReg u.email (u.autoNamed k).RepoKey)
                  u.email (u.autoNamed k).RepoKey }) := by
      rw [User.AddKey]
      rcases h2 with hconn | ⟨hconn, hupd⟩
      · simp [hpre, User.addKeyRepository, h1, User.addKeyDB, User.Update, hconn,
          User.removeKeyRepository, hroll]
      · simp [hpre, User.addKeyRepository, h1, User.addKeyDB, User.Update, hconn, hupd,
          User.removeKeyRepository, hroll]
    rw [hrun]
    exact ⟨rfl, rfl, hrec,
      fun _ => removeKeyReg_not_mem _ u.email (u.autoNamed k).RepoKey⟩
  · have hrun : User.AddKey u k o w =
        (.error (.service m), { u with keys := u.keys ++ [u.autoNamed k] },
          { w with
              rm := w.rm.addKeyReg u.email (u.autoNamed k).RepoKey,
              log := w.log ++
                ["failed to remove key from the repository manager during rollback"] }) := by
      rw [User.AddKey]
      rcases h2 with hconn | ⟨hconn, hupd⟩
      · simp [hpre, User.addKeyRepository, h1, User.addKeyDB, User.Update, hconn,
          User.removeKeyRepository, hroll]
      · simp [hpre, User.addKeyRepository, h1, User.addKeyDB, User.Update, hconn, hupd,
          User.removeKeyRepository, hroll]
    rw [hrun]
    refine ⟨rfl, rfl, hrec, fun hcontra => ?_⟩
    exact absurd hcontra (Option.some_ne_none m2)

/-- Witness for C1 (amended): a concrete persist-failure run with a
successful rollback returns the persistence error and leaves the key
deregistered. -/
theorem addKey_persist_failure_rolls_back_witness :
    (User.AddKey exUser0 exKey1 persistFailRollbackOk emptyWorld).1 =
      .error (.service "update failed")
    ∧ ∀ p ∈ (User.AddKey exUser0 exKey1 persistFailRollbackOk emptyWorld).2.2.rm.keys,
        p ≠ (exUser0.email, (exUser0.autoNamed exKey1).RepoKey) := by
  have h := addKey_persist_failure_rolls_back exUser0 exKey1 persistFailRollbackOk
    emptyWorld "update failed" (by decide) rfl (Or.inr ⟨rfl, rfl⟩) (by simp [emptyWorld])
  exact ⟨h.1, h.2.2.2 rfl⟩

/-- C2 counterexample: a `Create` run whose Repository Manager registration
fails and whose compensating `Delete` fails to obtain a connection.  The
returned error is still the Repository Manager error, but the deletion
failure is silently discarded — nothing is logged (the final log is empty),
refuting "a failure of that compensating deletion is only logged".  (The
record remains in the store; the claim's clean-store clause only covers
successful deletions.) -/
theorem create_compensation_conn_failure_unlogged :
    User.Create uC2 createRmFailDelConnFail emptyWorld =
      (.error (.service "git server down"), uC2,
        { ds := { users := [uC2] }, rm := { users := [], keys := [] }, log := [] }) :=
  rfl

/-- C2 (amended): for every `Create` call in which the Document Store insert
succeeds and the Repository Manager registration fails, `Create` returns the
Repository Manager error — a failure of the compensating deletion never
replaces it; a removal failure inside the deletion is logged (a connection
failure there is silently discarded); and when the deletion succeeds the
Document Store no longer contains the user record. -/
theorem create_rm_failure_compensates (u : User) (o : CreateOutcomes) (w : World)
    (e : Err) (rm' : RepoManagerState)
    (hc : o.dbConn = none)
    (hnodup : ∀ r ∈ w.ds.users, r.email ≠ u.email)
    (hi : o.dbInsert = none)
    (hrm : (u.resolveQuota o.appsPerUser).createOnRepositoryManager o.rmCreateUser
        o.rmAddKeyAt w.rm = (.error e, rm')) :
    (User.Create u o w).1 = .error e
    ∧ (o.del.dbConn = none → o.del.dbRemove = none →
        ∀ r ∈ (User.Create u o w).2.2.ds.users, r.email ≠ u.email)
    ∧ (o.del.dbConn = none → ∀ m, o.del.dbRemove = some m → o.del.rmRemoveUser = none →
        (User.Create u o w).2.2.log = w.log ++
          ["failed to remove user \"" ++ u.email ++ "\" from the database: " ++ m]) := by
  have hany : w.ds.users.any
      (fun r => r.email == (u.resolveQuota o.appsPerUser).email) = false := by
    rw [List.any_eq_false]
    intro r hr
    rw [resolveQuota_email]
    simp only [beq_iff_eq]
    exact hnodup r hr
  have hins : w.ds.insertUser (u.resolveQuota o.appsPerUser) o.dbInsert =
      (.ok (), { users := w.ds.users ++ [u.resolveQuota o.appsPerUser] }) := by
    simp [DocStore.insertUser, hany, hi]
  have hrun : User.Create u o w =
      (.error e, u.resolveQuota o.appsPerUser,
        ((u.resolveQuota o.appsPerUser).Delete o.del
          { ds := { users := w.ds.users ++ [u.resolveQuota o.appsPerUser] },
            rm := rm', log := w.log }).2) := by
    rw [User.Create, hc]
    simp only [hins, hrm]
  refine ⟨by rw [hrun], ?_, ?_⟩
  · intro hdc hdr r hr
    rw [hrun] at hr
    rw [User.Delete, hdc] at hr
    rcases hru : o.del.rmRemoveUser with _ | m0 <;>
      simp only [hdr, hru, DocStore.removeByEmail] at hr <;>
      rw [removeFirst_append_self _ _ _
        (fun r0 hr0 => by rw [resolveQuota_email]; exact hnodup r0 hr0) rfl] at hr <;>
      exact hnodup r hr
  · intro hdc m hdr hru
    rw [hrun, User.Delete, hdc]
    simp [hdr, hru, resolveQuota_email]

/-- Witness for C2 (amended): a concrete run where the Repository Manager
registration fails and the compensating deletion succeeds; the Repository
Manager error is returned and the store no longer holds the record. -/
theorem create_rm_failure_compensates_witness :
    (User.Create uC2 createRmFailDelOk emptyWorld).1 = .error (.service "git server down")
    ∧ ∀ r ∈ (User.Create uC2 createRmFailDelOk emptyWorld).2.2.ds.users,
        r.email ≠ uC2.email := by
  have h := create_rm_failure_compensates uC2 createRmFailDelOk emptyWorld
    (.service "git server down") { users := [], keys := [] }
    rfl (by simp [emptyWorld]) rfl rfl
  exact ⟨h.1, h.2.1 rfl rfl⟩

end Auth
